import Mathlib

/-!
# pping: the probe loop of `pinger.Ping`

A shallow embedding of `pinger/pinger.go`.

* Go `int` and `time.Duration` values are mathematical integers; every
  arithmetic operation the source performs on them (`++`, `+`, `Time.Sub`)
  is modelled with its 64-bit behaviour (`incr`, `durAdd`, `timeSub`).
* The network, the clock and the goroutine calling `Interrupt` are the
  environment: every iteration of the loop consumes one `Attempt` record
  holding what `net.DialTimeout`, `conn.Write`, `conn.Read` and `time.Now`
  returned during that iteration, and whether `Interrupt` ran meanwhile
  (as one atomic step, interleaved with the steps of `Ping`).
* A run whose loop asks for more attempts than the environment answers has
  not returned: its outcome is `Return.pending`.
* Everything the function does to the outside world (dialling, writing,
  reading, closing, sleeping, calling `p.Log`) is appended to a trace.
* A log line is kept as its format together with the arguments handed to
  `fmt.Sprintf`; the rendering of the `%.3f` float is not modelled.
-/

namespace Pping

/-! ## Machine arithmetic -/

/-- Largest value of a 64-bit Go `int` (and of a `time.Duration`). -/
def maxInt : Int := 9223372036854775807

/-- Smallest value of a 64-bit Go `int` (and of a `time.Duration`). -/
def minInt : Int := -9223372036854775808

/-- Two-complement wrap-around of an integer into the 64-bit signed range. -/
def wrapInt (x : Int) : Int :=
  (x + 9223372036854775808) % 18446744073709551616 - 9223372036854775808

/-- Go `x++` on an `int`. -/
def incr (x : Int) : Int := wrapInt (x + 1)

/-- Go `a + b` on two `time.Duration` values. -/
def durAdd (a b : Int) : Int := wrapInt (a + b)

/-- Go `t.Sub(u)` on two clock readings (nanoseconds): the difference,
saturated to the range of a `time.Duration`. -/
def timeSub (t u : Int) : Int :=
  if t - u > maxInt then maxInt else if t - u < minInt then minInt else t - u

/-! ## Data model -/

/-- The `Pinger` struct. The `Log` field is a callback; its calls are recorded
in the trace of the run instead. -/
structure Pinger where
  Host : String
  Port : Int
  Protocol : String
  Wait : Bool
  PayloadSize : Int
  Interval : Int
  TTL : Int
  MaxPings : Int
  DNSServer : String
  interrupted : Bool
  deriving DecidableEq

/-- The `Result` struct. -/
structure Result where
  Received : Int
  Dropped : Int
  deriving DecidableEq

/-- A line handed to `p.Log`: the format of the `fmt.Sprintf` call and its arguments. -/
inductive LogLine where
  /-- Format `"%v for seq=%d"` (in `wrap`). -/
  | failure (reason : String) (seq : Int)
  /-- Format `"PING %s (%s): %d data bytes"`. -/
  | banner (host ip : String) (payloadSize : Int)
  /-- Format `"%d bytes %s %s %s_seq=%d time=%.3f ms"`; `rtt` is the duration in
  nanoseconds whose quotient by `time.Millisecond` is printed. -/
  | reply (bytes : Int) (direction ip protocol : String) (seq : Int) (rtt : Int)
  deriving DecidableEq

/-- What a run does to the outside world. -/
inductive Event where
  /-- Call `net.DialTimeout(network, address, timeout)`. -/
  | dial (network address : String) (timeout : Int)
  /-- Assignment `net.DefaultResolver = ...` with a dialer that always dials `dns`. -/
  | setResolver (dns : String)
  /-- Call `conn.SetDeadline(now.Add(ttl))`. -/
  | setDeadline (now ttl : Int)
  /-- Call `conn.Write(payload)`. -/
  | write (payload : List Nat)
  /-- Call `conn.Read(buf)` with a buffer of the given size. -/
  | read (bufSize : Nat)
  /-- Call `conn.Close()`. -/
  | close
  /-- Call `p.Log(line)`. -/
  | log (line : LogLine)
  /-- Call `time.Sleep(d)`. -/
  | sleep (d : Int)
  deriving DecidableEq

/-- Where in an iteration a concurrent call of `Interrupt` lands. -/
inductive InterruptPoint where
  /-- While the attempt is in flight: after the loop condition was read and
  before `wrap` runs. -/
  | inFlight
  /-- During the `time.Sleep` at the end of `wrap`. -/
  | asleep
  deriving DecidableEq

/-- What the environment answers during one iteration of the probe loop. A
field is only consulted when the iteration reaches the call it belongs to. -/
structure Attempt where
  /-- Readings of `time.Now()` around `net.DialTimeout`. -/
  start1 : Int
  stop1 : Int
  /-- Error of `net.DialTimeout` (its text), `none` for `nil`. -/
  dialErr : Option String
  /-- Value of `conn.RemoteAddr().String()`. -/
  remoteAddr : String
  /-- Reading of `time.Now()` inside the `SetDeadline` call. -/
  deadlineNow : Int
  /-- Readings of `time.Now()` around `conn.Write`. -/
  start2 : Int
  stop2 : Int
  /-- Results of `conn.Write`. -/
  writeN : Int
  writeErr : Option String
  /-- Readings of `time.Now()` around `conn.Read`. -/
  start3 : Int
  stop3 : Int
  /-- Results of `conn.Read`. -/
  readN : Int
  readErr : Option String
  /-- A call of `Interrupt` from another goroutine during this iteration. -/
  interruptAt : Option InterruptPoint
  deriving DecidableEq

/-- The environment of one call of `Ping`. -/
structure Env where
  /-- A call of `Interrupt` from another goroutine after `Ping` has lowered the flag
  and before the loop condition is read for the first time. -/
  interruptEarly : Bool
  /-- Error of the reachability dial to the DNS server, `none` for `nil`. -/
  dnsDialErr : Option String
  /-- Answers for the successive iterations of the probe loop. -/
  attempts : List Attempt
  deriving DecidableEq

/-- The variables of a running `Ping`: the two structs behind the pointers `p`
and `r`, the locals `count` and `firstPacket`, and the trace so far. -/
structure State where
  p : Pinger
  r : Result
  count : Int
  firstPacket : Bool
  trace : List Event
  deriving DecidableEq

/-- How a call of `Ping` ends. -/
inductive Return where
  /-- Returned `errors.New(msg)`. -/
  | error (msg : String)
  /-- Returned `nil`. -/
  | nil
  /-- The loop asked for another attempt and the environment has no more
  answers: the call has not returned yet. -/
  | pending
  deriving DecidableEq

/-- The end of a call of `Ping` and the variables at that point. -/
structure Outcome where
  ret : Return
  final : State
  deriving DecidableEq

/-! ## Operations -/

/-- Append an event to the trace. -/
def State.emit (s : State) (e : Event) : State :=
  { s with trace := s.trace ++ [e] }

/-- The method `func (p *Pinger) Interrupt()`. -/
def Pinger.Interrupt (p : Pinger) : Pinger :=
  { p with interrupted := true }

/-- A call of `p.Interrupt()` seen from the variables of a running `Ping`. -/
def State.Interrupt (s : State) : State :=
  { s with p := s.p.Interrupt }

/-- A call of `Interrupt` landing at point `pt`, if the environment has one there. -/
def interruptIf (a : Attempt) (pt : InterruptPoint) (s : State) : State :=
  if a.interruptAt = some pt then s.Interrupt else s

/-- The payload built at the start of `Ping`: `PayloadSize` bytes `0x0a`
(none when `PayloadSize` is not positive). -/
def payload (p : Pinger) : List Nat :=
  List.replicate p.PayloadSize.toNat 10

/-- The closure `wrap` of `Ping`; `conn` tells whether the connection is non-nil. -/
def wrap (conn : Bool) (err : Option String) (s : State) : State :=
  let s := if conn then s.emit Event.close else s
  let s := match err with
    | some e =>
      ({ s with r := { s.r with Dropped := incr s.r.Dropped } }).emit
        (Event.log (LogLine.failure e s.count))
    | none => s
  let s := { s with count := incr s.count }
  let s := if s.count ≥ s.p.MaxPings then { s with p := { s.p with interrupted := true } } else s
  s.emit (Event.sleep s.p.Interval)

/-- The address of the probed endpoint, `fmt.Sprintf("%s:%d", p.Host, p.Port)`. -/
def target (p : Pinger) : String :=
  p.Host ++ ":" ++ toString p.Port

/-- The tail of a successful iteration: `r.Received++`, the reply line, `wrap(conn, nil)`. -/
def succeed (a : Attempt) (rtt payloadSize : Int) (direction : String) (s : State) : State :=
  let s := { s with r := { s.r with Received := incr s.r.Received } }
  let s := s.emit (Event.log
    (LogLine.reply payloadSize direction a.remoteAddr s.p.Protocol s.count rtt))
  wrap true none s

/-- The part of the loop body between the loop condition and the sleep of `wrap`. -/
def probe (a : Attempt) (s : State) : State :=
  let s := s.emit (Event.dial s.p.Protocol (target s.p) s.p.TTL)
  match a.dialErr with
  | some e => wrap false (some e) s
  | none =>
    let s := if s.firstPacket then
        ({ s with firstPacket := false }).emit
          (Event.log (LogLine.banner s.p.Host a.remoteAddr s.p.PayloadSize))
      else s
    let s := s.emit (Event.setDeadline a.deadlineNow s.p.TTL)
    let s := s.emit (Event.write (payload s.p))
    match a.writeErr with
    | some e => wrap true (some e) s
    | none =>
      if a.writeN ≠ s.p.PayloadSize then
        wrap true (some ("partial payload written (size=" ++ toString a.writeN ++ ")")) s
      else
        let rtt := durAdd (timeSub a.stop1 a.start1) (timeSub a.stop2 a.start2)
        if s.p.Wait then
          let s := s.emit (Event.read 1024)
          match a.readErr with
          | some e => wrap true (some e) s
          | none =>
            if a.readN ≤ 0 then wrap true (some "no packet received") s
            else succeed a (durAdd rtt (timeSub a.stop3 a.start3)) a.readN "from" s
        else succeed a rtt s.p.PayloadSize "to" s

/-- One iteration of `for !p.interrupted { ... }`, with the calls of
`Interrupt` the environment makes meanwhile. -/
def iteration (a : Attempt) (s : State) : State :=
  interruptIf a InterruptPoint.asleep (probe a (interruptIf a InterruptPoint.inFlight s))

/-- The loop `for !p.interrupted { ... }`: the flag is read before every iteration. -/
def loop : List Attempt → State → Outcome
  | [], s => if s.p.interrupted then ⟨Return.nil, s⟩ else ⟨Return.pending, s⟩
  | a :: rest, s => if s.p.interrupted then ⟨Return.nil, s⟩ else loop rest (iteration a s)

/-- The variables at every iteration boundary of the loop (every time the loop
condition is read), in order. -/
def boundaries : List Attempt → State → List State
  | [], s => [s]
  | a :: rest, s => s :: (if s.p.interrupted then [] else boundaries rest (iteration a s))

/-- The DNS address `Ping` works with: the value of its local `dns`. -/
def dnsAddress (server : String) : String :=
  if server.toList.contains ':' then server else server ++ ":53"

/-- The variables of `Ping` on entry, after `p.interrupted = false` and `count := 0`;
`firstPacket` is declared `true` before the loop and unused until then. -/
def enter (p : Pinger) (r : Result) : State :=
  { p := { p with interrupted := false }, r := r, count := 0, firstPacket := true, trace := [] }

/-- The variables of `Ping` when the loop is reached: after the optional DNS
check and resolver override. -/
def beforeLoop (p : Pinger) (r : Result) : State :=
  if p.DNSServer ≠ "" then
    ((enter p r).emit (Event.dial p.Protocol (dnsAddress p.DNSServer) p.TTL)).emit
      (Event.setResolver (dnsAddress p.DNSServer))
  else enter p r

/-- A call of `Interrupt` landing between the entry of `Ping` and its loop, if the
environment has one there. Nothing reads the flag in between, so it is applied
where that stretch ends. -/
def early (env : Env) (s : State) : State :=
  if env.interruptEarly then s.Interrupt else s

/-- The variables of `Ping` when the loop condition is read for the first time. -/
def atLoop (env : Env) (p : Pinger) (r : Result) : State :=
  early env (beforeLoop p r)

/-- The method `func (p *Pinger) Ping(r *Result) error`. -/
def Ping (env : Env) (p : Pinger) (r : Result) : Outcome :=
  if p.DNSServer ≠ "" then
    let s := (enter p r).emit (Event.dial p.Protocol (dnsAddress p.DNSServer) p.TTL)
    match env.dnsDialErr with
    | some _ =>
      ⟨Return.error ("dns server not reachable: " ++ dnsAddress p.DNSServer), early env s⟩
    | none =>
      loop env.attempts (early env (s.emit (Event.setResolver (dnsAddress p.DNSServer))))
  else loop env.attempts (early env (enter p r))

/-- The variables at every iteration boundary of a call of `Ping`; none when
the call returns before the loop. -/
def Ping.boundaries (env : Env) (p : Pinger) (r : Result) : List State :=
  if p.DNSServer ≠ "" ∧ env.dnsDialErr ≠ none then []
  else Pping.boundaries env.attempts (atLoop env p r)

/-! ## Observations on attempts, states and traces -/

/-- The error an iteration hands to `wrap`, read off the `wrap(..., err)` calls of
the loop body in the order the body reaches them; `none` when the iteration
gets to `r.Received++`. -/
def failureOf (p : Pinger) (a : Attempt) : Option String :=
  match a.dialErr with
  | some e => some e
  | none =>
    match a.writeErr with
    | some e => some e
    | none =>
      if a.writeN ≠ p.PayloadSize then
        some ("partial payload written (size=" ++ toString a.writeN ++ ")")
      else if p.Wait then
        match a.readErr with
        | some e => some e
        | none => if a.readN ≤ 0 then some "no packet received" else none
      else none

/-- An attempt succeeds when no call of the iteration fails. -/
def succeeds (p : Pinger) (a : Attempt) : Bool :=
  (failureOf p a).isNone

/-- The pinger with its interruption flag replaced, every other field kept. -/
def Pinger.withFlag (p : Pinger) (b : Bool) : Pinger :=
  { p with interrupted := b }

/-- The line of a `Log` event. -/
def Event.line : Event → Option LogLine
  | Event.log l => some l
  | _ => none

/-- The lines handed to `p.Log` so far, in order. -/
def logged (s : State) : List LogLine :=
  s.trace.filterMap Event.line

/-- Whether a line is the banner. -/
def LogLine.isBanner : LogLine → Bool
  | LogLine.banner _ _ _ => true
  | _ => false

/-- How many banner lines were logged so far. -/
def bannerCount (s : State) : Nat :=
  (logged s).countP LogLine.isBanner

/-- Whether an event is a call of `net.DialTimeout`. -/
def Event.isDial : Event → Bool
  | Event.dial _ _ _ => true
  | _ => false

/-- How many times `net.DialTimeout` was called so far. -/
def dials (s : State) : Nat :=
  s.trace.countP Event.isDial

/-- The banner line an iteration logs, if it logs one. -/
def bannerOf (a : Attempt) (s : State) : List LogLine :=
  if s.firstPacket = true ∧ a.dialErr = none then
    [LogLine.banner s.p.Host a.remoteAddr s.p.PayloadSize]
  else []

/-- The value of the local `rtt` when the reply line is printed. -/
def rttOf (p : Pinger) (a : Attempt) : Int :=
  if p.Wait then
    durAdd (durAdd (timeSub a.stop1 a.start1) (timeSub a.stop2 a.start2))
      (timeSub a.stop3 a.start3)
  else durAdd (timeSub a.stop1 a.start1) (timeSub a.stop2 a.start2)

/-- The line an iteration logs about its attempt. -/
def lineOf (a : Attempt) (s : State) : LogLine :=
  match failureOf s.p a with
  | some m => LogLine.failure m s.count
  | none =>
    if s.p.Wait then
      LogLine.reply a.readN "from" a.remoteAddr s.p.Protocol s.count (rttOf s.p a)
    else LogLine.reply s.p.PayloadSize "to" a.remoteAddr s.p.Protocol s.count (rttOf s.p a)

/-- A phase whose clock readings are in order and at most a third of the
longest `time.Duration` apart (about 97 years). -/
def elapsedOk (start stop : Int) : Prop :=
  0 ≤ stop - start ∧ stop - start ≤ 3074457345618258602

/-- The invariant of the probe loop for a run that started from a zeroed `Result`. -/
structure LoopInv (s : State) : Prop where
  maxPings_le : s.p.MaxPings ≤ maxInt
  count_nonneg : 0 ≤ s.count
  count_lt : s.p.interrupted = false → s.count < maxInt
  received_nonneg : 0 ≤ s.r.Received
  dropped_nonneg : 0 ≤ s.r.Dropped
  sum_eq : s.r.Received + s.r.Dropped = s.count

/-- The part of the loop invariant that concerns `count` alone; it holds for every
initial `Result`. -/
def CountOk (s : State) : Prop :=
  s.p.MaxPings ≤ maxInt ∧ 0 ≤ s.count ∧ (s.p.interrupted = false → s.count < maxInt)

/-! ## Sample inputs -/

/-- A pinger like the one of `pinger_test.go`: TCP, five probes of 64 bytes. -/
def demoPinger : Pinger :=
  { Host := "127.0.0.1", Port := 50053, Protocol := "tcp", Wait := false, PayloadSize := 64,
    Interval := 20000000, TTL := 200000000, MaxPings := 5, DNSServer := "",
    interrupted := false }

/-- An attempt in which every call succeeds: 3 ms to connect, 1 ms to write,
17 bytes read after 5 ms. -/
def demoOk : Attempt :=
  { start1 := 1000000, stop1 := 4000000, dialErr := none, remoteAddr := "127.0.0.1:50053",
    deadlineNow := 4100000, start2 := 4200000, stop2 := 5200000, writeN := 64,
    writeErr := none, start3 := 5300000, stop3 := 10300000, readN := 17, readErr := none,
    interruptAt := none }

/-- An attempt whose connect is refused. -/
def demoRefused : Attempt :=
  { demoOk with dialErr := some "dial tcp 127.0.0.1:50053: connect: connection refused" }

/-- An attempt that connects and writes, and whose read times out. -/
def demoTimeout : Attempt :=
  { demoOk with readN := 0, readErr := some "read udp 127.0.0.1:50053: i/o timeout" }

/-- A successful attempt during which another goroutine calls `Interrupt`. -/
def demoInterrupted : Attempt :=
  { demoOk with interruptAt := some InterruptPoint.inFlight }

/-- Six attempts, the second and the fifth refused. -/
def demoMixed : List Attempt :=
  [demoOk, demoRefused, demoOk, demoOk, demoRefused, demoOk]

/-- The pinger of the UDP test: it waits for an answer. -/
def demoUdp : Pinger :=
  { demoPinger with Protocol := "udp", Wait := true }

/-- An environment without DNS failure and without early `Interrupt`, answering the
given attempts. -/
def demoEnv (as : List Attempt) : Env :=
  { interruptEarly := false, dnsDialErr := none, attempts := as }

/-! ## Machine arithmetic: lemmas -/

theorem incr_eq (x : Int) (h0 : 0 ≤ x) (h1 : x < maxInt) : incr x = x + 1 := by
  unfold incr wrapInt
  unfold maxInt at h1
  omega

theorem durAdd_eq (a b : Int) (h0 : minInt ≤ a + b) (h1 : a + b ≤ maxInt) :
    durAdd a b = a + b := by
  unfold durAdd wrapInt
  unfold minInt at h0
  unfold maxInt at h1
  omega

theorem timeSub_eq (t u : Int) (h0 : minInt ≤ t - u) (h1 : t - u ≤ maxInt) :
    timeSub t u = t - u := by
  unfold timeSub
  rw [if_neg (by omega), if_neg (by omega)]

theorem timeSub_of_elapsedOk (t u : Int) (h : elapsedOk u t) : timeSub t u = t - u := by
  obtain ⟨h0, h1⟩ := h
  apply timeSub_eq <;> simp only [minInt, maxInt] <;> omega

/-! ## One iteration -/

theorem wrap_count (c : Bool) (e : Option String) (s : State) :
    (wrap c e s).count = incr s.count := by
  unfold wrap
  cases e <;> cases c <;> simp [State.emit] <;> split <;> rfl

theorem wrap_firstPacket (c : Bool) (e : Option String) (s : State) :
    (wrap c e s).firstPacket = s.firstPacket := by
  unfold wrap
  cases e <;> cases c <;> simp [State.emit] <;> split <;> rfl

theorem wrap_r (c : Bool) (e : Option String) (s : State) :
    (wrap c e s).r = if e.isSome then { s.r with Dropped := incr s.r.Dropped } else s.r := by
  unfold wrap
  cases e <;> cases c <;> simp [State.emit] <;> split <;> rfl

theorem wrap_p (c : Bool) (e : Option String) (s : State) :
    (wrap c e s).p =
      s.p.withFlag (s.p.interrupted || decide (s.p.MaxPings ≤ incr s.count)) := by
  obtain ⟨p, r, n, f, t⟩ := s
  cases p
  unfold wrap
  cases e <;> cases c <;> simp [State.emit, Pinger.withFlag] <;> split <;> simp_all

theorem wrap_logged (c : Bool) (e : Option String) (s : State) :
    List.filterMap Event.line (wrap c e s).trace =
      List.filterMap Event.line s.trace ++ (match e with
        | some m => [LogLine.failure m s.count]
        | none => []) := by
  unfold wrap
  cases e <;> cases c <;> simp [State.emit, Event.line, List.filterMap_append] <;>
    split <;> simp [Event.line]

theorem wrap_dials (c : Bool) (e : Option String) (s : State) :
    List.countP Event.isDial (wrap c e s).trace = List.countP Event.isDial s.trace := by
  unfold wrap
  cases e <;> cases c <;> simp [State.emit, Event.isDial, List.countP_append] <;>
    split <;> simp [Event.isDial]

theorem probe_count (a : Attempt) (s : State) : (probe a s).count = incr s.count := by
  unfold probe succeed
  simp only [State.emit]
  repeat' split
  all_goals simp [wrap_count]

theorem probe_firstPacket (a : Attempt) (s : State) :
    (probe a s).firstPacket = (s.firstPacket && a.dialErr.isSome) := by
  unfold probe succeed
  simp only [State.emit]
  repeat' split
  all_goals simp_all [wrap_firstPacket]

theorem probe_r (a : Attempt) (s : State) :
    (probe a s).r = match failureOf s.p a with
      | some _ => { s.r with Dropped := incr s.r.Dropped }
      | none => { s.r with Received := incr s.r.Received } := by
  unfold probe succeed failureOf
  simp only [State.emit]
  repeat' split
  all_goals simp_all [wrap_r]

theorem probe_p (a : Attempt) (s : State) :
    (probe a s).p = s.p.withFlag
      (s.p.interrupted || decide (s.p.MaxPings ≤ incr s.count)) := by
  unfold probe succeed
  simp only [State.emit]
  repeat' split
  all_goals simp_all [wrap_p, wrap_count, Pinger.withFlag]

theorem probe_logged (a : Attempt) (s : State) :
    logged (probe a s) = logged s ++ bannerOf a s ++ [lineOf a s] := by
  unfold probe succeed bannerOf lineOf failureOf rttOf
  simp only [State.emit]
  repeat' split
  all_goals simp_all [wrap_logged, logged, Event.line, List.filterMap_append]

theorem probe_dials (a : Attempt) (s : State) : dials (probe a s) = dials s + 1 := by
  unfold probe succeed
  simp only [State.emit]
  repeat' split
  all_goals simp_all [wrap_dials, dials, Event.isDial, List.countP_append]

theorem interruptIf_eq (a : Attempt) (pt : InterruptPoint) (s : State) :
    interruptIf a pt s =
      { s with p := s.p.withFlag (s.p.interrupted || decide (a.interruptAt = some pt)) } := by
  obtain ⟨p, r, n, f, t⟩ := s
  cases p
  unfold interruptIf
  split <;> simp_all [State.Interrupt, Pinger.Interrupt, Pinger.withFlag]

theorem iteration_count (a : Attempt) (s : State) : (iteration a s).count = incr s.count := by
  simp [iteration, interruptIf_eq, probe_count]

theorem iteration_firstPacket (a : Attempt) (s : State) :
    (iteration a s).firstPacket = (s.firstPacket && a.dialErr.isSome) := by
  simp [iteration, interruptIf_eq, probe_firstPacket]

theorem iteration_r (a : Attempt) (s : State) :
    (iteration a s).r = match failureOf s.p a with
      | some _ => { s.r with Dropped := incr s.r.Dropped }
      | none => { s.r with Received := incr s.r.Received } := by
  simp [iteration, interruptIf_eq, probe_r, Pinger.withFlag, failureOf]

theorem iteration_p (a : Attempt) (s : State) :
    (iteration a s).p = s.p.withFlag
      (s.p.interrupted || a.interruptAt.isSome || decide (s.p.MaxPings ≤ incr s.count)) := by
  simp only [iteration, interruptIf_eq, probe_p, Pinger.withFlag]
  rcases h : a.interruptAt with _ | _ | _ <;> simp [Bool.or_comm]

theorem iteration_logged (a : Attempt) (s : State) :
    logged (iteration a s) = logged s ++ bannerOf a s ++ [lineOf a s] := by
  have h := probe_logged a (interruptIf a InterruptPoint.inFlight s)
  simp only [iteration, interruptIf_eq] at h ⊢
  simpa [logged, bannerOf, lineOf, failureOf, rttOf, Pinger.withFlag] using h

theorem iteration_dials (a : Attempt) (s : State) : dials (iteration a s) = dials s + 1 := by
  have h := probe_dials a (interruptIf a InterruptPoint.inFlight s)
  simp only [iteration, interruptIf_eq] at h ⊢
  simpa [dials] using h


/-! ## The loop -/

theorem iteration_maxPings (a : Attempt) (s : State) :
    (iteration a s).p.MaxPings = s.p.MaxPings := by
  rw [iteration_p]; rfl

theorem iteration_interrupted (a : Attempt) (s : State) :
    (iteration a s).p.interrupted =
      (s.p.interrupted || a.interruptAt.isSome || decide (s.p.MaxPings ≤ incr s.count)) := by
  rw [iteration_p]; rfl

theorem iteration_failureOf (a b : Attempt) (s : State) :
    failureOf (iteration a s).p b = failureOf s.p b := by
  rw [iteration_p]; rfl

theorem iteration_succeeds (a b : Attempt) (s : State) :
    succeeds (iteration a s).p b = succeeds s.p b := by
  unfold succeeds; rw [iteration_failureOf]

theorem iteration_r_of_inv (a : Attempt) (s : State) (h : LoopInv s)
    (hrun : s.p.interrupted = false) :
    (iteration a s).r =
      if succeeds s.p a then { s.r with Received := s.r.Received + 1 }
      else { s.r with Dropped := s.r.Dropped + 1 } := by
  have hc := h.count_lt hrun
  have h1 := h.received_nonneg
  have h2 := h.dropped_nonneg
  have h3 := h.sum_eq
  have hR : incr s.r.Received = s.r.Received + 1 := incr_eq _ h1 (by omega)
  have hD : incr s.r.Dropped = s.r.Dropped + 1 := incr_eq _ h2 (by omega)
  rw [iteration_r, hR, hD]
  unfold succeeds
  cases failureOf s.p a <;> simp

theorem iteration_count_of_inv (a : Attempt) (s : State) (h : LoopInv s)
    (hrun : s.p.interrupted = false) : (iteration a s).count = s.count + 1 := by
  rw [iteration_count, incr_eq _ h.count_nonneg (h.count_lt hrun)]

theorem loopInv_step {s : State} (h : LoopInv s) (hrun : s.p.interrupted = false)
    (a : Attempt) : LoopInv (iteration a s) := by
  have hc := iteration_count_of_inv a s h hrun
  have hr := iteration_r_of_inv a s h hrun
  have hi := iteration_interrupted a s
  have hm := iteration_maxPings a s
  have h0 := h.count_nonneg
  have h1 := h.received_nonneg
  have h2 := h.dropped_nonneg
  have h3 := h.sum_eq
  have h4 := h.maxPings_le
  have hc2 : incr s.count = s.count + 1 := incr_eq _ h0 (h.count_lt hrun)
  refine ⟨?_, ?_, ?_, ?_, ?_, ?_⟩
  · rw [hm]; exact h4
  · omega
  · intro hf
    rw [hi, hc2] at hf
    simp at hf
    omega
  · rw [hr]; split <;> simp <;> omega
  · rw [hr]; split <;> simp <;> omega
  · rw [hr, hc]; split <;> simp <;> omega

theorem boundaries_zero (as : List Attempt) (s : State) : (boundaries as s)[0]? = some s := by
  cases as <;> simp [boundaries]

theorem boundaries_of_interrupted (as : List Attempt) (s : State)
    (h : s.p.interrupted = true) : boundaries as s = [s] := by
  cases as <;> simp [boundaries, h]

theorem boundaries_cons_succ (a : Attempt) (rest : List Attempt) (s : State) (i : Nat)
    (h : s.p.interrupted = false) :
    (boundaries (a :: rest) s)[i + 1]? = (boundaries rest (iteration a s))[i]? := by
  simp [boundaries, h]

theorem boundaries_succ_some {as : List Attempt} {s b : State} {i : Nat}
    (h : (boundaries as s)[i + 1]? = some b) :
    s.p.interrupted = false ∧ ∃ a rest, as = a :: rest ∧
      (boundaries rest (iteration a s))[i]? = some b := by
  cases as with
  | nil => simp [boundaries] at h
  | cons a rest =>
    cases hs : s.p.interrupted with
    | true => simp [boundaries, hs] at h
    | false =>
      rw [boundaries_cons_succ a rest s i hs] at h
      exact ⟨rfl, a, rest, rfl, h⟩

/-- Two consecutive iteration boundaries are one iteration apart. -/
theorem boundaries_step (as : List Attempt) (s : State) (i : Nat) (b c : State)
    (hb : (boundaries as s)[i]? = some b) (hc : (boundaries as s)[i + 1]? = some c) :
    b.p.interrupted = false ∧ ∃ a, as[i]? = some a ∧ c = iteration a b := by
  induction i generalizing as s with
  | zero =>
    obtain ⟨hs, a, rest, rfl, h⟩ := boundaries_succ_some hc
    rw [boundaries_zero] at hb h
    cases hb
    cases h
    exact ⟨hs, a, by simp, rfl⟩
  | succ i ih =>
    obtain ⟨hs, a, rest, rfl, h⟩ := boundaries_succ_some hc
    rw [boundaries_cons_succ a rest s i hs] at hb
    obtain ⟨h1, a1, h2, h3⟩ := ih rest (iteration a s) hb h
    exact ⟨h1, a1, by simpa using h2, h3⟩

/-- An iteration boundary with the flag down is followed by the iteration of the
next attempt the environment answers. -/
theorem boundaries_next (as : List Attempt) (s : State) (i : Nat) (b : State) (a : Attempt)
    (hb : (boundaries as s)[i]? = some b) (hrun : b.p.interrupted = false)
    (ha : as[i]? = some a) : (boundaries as s)[i + 1]? = some (iteration a b) := by
  induction i generalizing as s with
  | zero =>
    rw [boundaries_zero] at hb
    cases hb
    cases as with
    | nil => simp at ha
    | cons a1 rest =>
      simp at ha
      subst ha
      rw [boundaries_cons_succ a1 rest _ 0 hrun, boundaries_zero]
  | succ i ih =>
    obtain ⟨hs, a1, rest, rfl, h⟩ := boundaries_succ_some hb
    rw [boundaries_cons_succ a1 rest s (i + 1) hs]
    exact ih rest (iteration a1 s) h (by simpa using ha)

/-- A boundary with the flag up is the last one, and the loop returns there. -/
theorem loop_of_boundary (as : List Attempt) (s : State) (k : Nat) (b : State)
    (hb : (boundaries as s)[k]? = some b) (hstop : b.p.interrupted = true) :
    loop as s = ⟨Return.nil, b⟩ ∧ (boundaries as s).length = k + 1 := by
  induction k generalizing as s with
  | zero =>
    rw [boundaries_zero] at hb
    cases hb
    rw [boundaries_of_interrupted as _ hstop]
    cases as <;> simp [loop, hstop]
  | succ k ih =>
    obtain ⟨hs, a, rest, rfl, h⟩ := boundaries_succ_some hb
    obtain ⟨h1, h2⟩ := ih rest (iteration a s) h
    simp [loop, boundaries, hs, h1, h2]

/-- The variables when the loop ends are those of the last boundary. -/
theorem loop_final (as : List Attempt) (s : State) :
    (boundaries as s)[(boundaries as s).length - 1]? = some (loop as s).final := by
  induction as generalizing s with
  | nil => simp [boundaries, loop]; split <;> rfl
  | cons a rest ih =>
    cases hs : s.p.interrupted with
    | true => simp [boundaries, loop, hs]
    | false =>
      have h := ih (iteration a s)
      have hpos : 0 < (boundaries rest (iteration a s)).length := by
        cases rest <;> simp [boundaries]
      simp only [boundaries, loop, hs, Bool.false_eq_true, if_false, List.length_cons]
      have : (boundaries rest (iteration a s)).length + 1 - 1 =
          ((boundaries rest (iteration a s)).length - 1) + 1 := by omega
      rw [this, List.getElem?_cons_succ]
      exact h

theorem loop_ret_ne_error (as : List Attempt) (s : State) (msg : String) :
    (loop as s).ret ≠ Return.error msg := by
  induction as generalizing s with
  | nil => simp [loop]; split <;> simp
  | cons a rest ih =>
    simp only [loop]
    split
    · simp
    · exact ih _

/-- Every boundary of a run that started from a zeroed `Result` satisfies the invariant,
and its counter is the number of iterations before it. -/
theorem boundaries_inv (as : List Attempt) (s : State) (h : LoopInv s) (i : Nat) (b : State)
    (hb : (boundaries as s)[i]? = some b) :
    LoopInv b ∧ b.count = s.count + i ∧ b.p.MaxPings = s.p.MaxPings := by
  induction i generalizing as s with
  | zero =>
    rw [boundaries_zero] at hb
    cases hb
    simp [h]
  | succ i ih =>
    obtain ⟨hs, a, rest, rfl, hb1⟩ := boundaries_succ_some hb
    obtain ⟨h1, h2, h3⟩ := ih rest (iteration a s) (loopInv_step h hs a) hb1
    refine ⟨h1, ?_, ?_⟩
    · rw [h2, iteration_count_of_inv a s h hs]; push_cast; omega
    · rw [h3, iteration_maxPings]

/-! ## The whole call -/

theorem early_eq (env : Env) (s : State) :
    early env s = { s with p := s.p.withFlag (s.p.interrupted || env.interruptEarly) } := by
  obtain ⟨p, r, n, f, t⟩ := s
  cases p
  unfold early
  split <;> simp_all [State.Interrupt, Pinger.Interrupt, Pinger.withFlag]

theorem atLoop_p (env : Env) (p : Pinger) (r : Result) :
    (atLoop env p r).p = p.withFlag env.interruptEarly := by
  unfold atLoop beforeLoop
  rw [early_eq]
  split <;> simp [State.emit, enter, Pinger.withFlag]

theorem atLoop_r (env : Env) (p : Pinger) (r : Result) : (atLoop env p r).r = r := by
  unfold atLoop beforeLoop
  rw [early_eq]
  split <;> rfl

theorem atLoop_count (env : Env) (p : Pinger) (r : Result) : (atLoop env p r).count = 0 := by
  unfold atLoop beforeLoop
  rw [early_eq]
  split <;> rfl

theorem atLoop_firstPacket (env : Env) (p : Pinger) (r : Result) :
    (atLoop env p r).firstPacket = true := by
  unfold atLoop beforeLoop
  rw [early_eq]
  split <;> rfl

theorem atLoop_logged (env : Env) (p : Pinger) (r : Result) : logged (atLoop env p r) = [] := by
  unfold atLoop beforeLoop
  rw [early_eq]
  split <;> simp [logged, State.emit, enter, Event.line]

theorem atLoop_dials (env : Env) (p : Pinger) (r : Result) (h : p.DNSServer = "") :
    dials (atLoop env p r) = 0 := by
  unfold atLoop beforeLoop
  rw [early_eq]
  simp [h, enter, dials]

theorem atLoop_inv (env : Env) (p : Pinger) (h : p.MaxPings ≤ maxInt) :
    LoopInv (atLoop env p ⟨0, 0⟩) := by
  refine ⟨?_, ?_, ?_, ?_, ?_, ?_⟩
  · rw [atLoop_p]; exact h
  · rw [atLoop_count]
  · intro _; rw [atLoop_count]; decide
  · rw [atLoop_r]
  · rw [atLoop_r]
  · rw [atLoop_r, atLoop_count]; rfl

theorem Ping_of_unreachable (env : Env) (p : Pinger) (r : Result) (e : String)
    (hd : p.DNSServer ≠ "") (he : env.dnsDialErr = some e) :
    Ping env p r = ⟨Return.error ("dns server not reachable: " ++ dnsAddress p.DNSServer),
      early env ((enter p r).emit (Event.dial p.Protocol (dnsAddress p.DNSServer) p.TTL))⟩ := by
  simp [Ping, hd, he]

theorem Ping_eq_loop (env : Env) (p : Pinger) (r : Result)
    (h : ¬ (p.DNSServer ≠ "" ∧ env.dnsDialErr ≠ none)) :
    Ping env p r = loop env.attempts (atLoop env p r) := by
  unfold Ping atLoop beforeLoop
  by_cases hd : p.DNSServer = ""
  · simp [hd]
  · have he : env.dnsDialErr = none := by
      by_contra hne
      exact h ⟨hd, hne⟩
    simp [hd, he]

theorem Ping_boundaries_eq (env : Env) (p : Pinger) (r : Result)
    (h : ¬ (p.DNSServer ≠ "" ∧ env.dnsDialErr ≠ none)) :
    Ping.boundaries env p r = boundaries env.attempts (atLoop env p r) := by
  unfold Ping.boundaries
  rw [if_neg h]

theorem Ping_boundaries_some {env : Env} {p : Pinger} {r : Result} {i : Nat} {b : State}
    (h : (Ping.boundaries env p r)[i]? = some b) :
    ¬ (p.DNSServer ≠ "" ∧ env.dnsDialErr ≠ none) := by
  intro hf
  unfold Ping.boundaries at h
  rw [if_pos hf] at h
  simp at h

/-! ## The claims -/

/-- C1: in a run of `Ping` that starts from a zeroed `Result`, whatever the
environment answers, at the `i`-th iteration boundary (after `i` completed
attempts) `Received + Dropped` is `i` and so is `count`; and from one boundary
to the next `count` grows by exactly one and exactly one of `Received`,
`Dropped` grows by exactly one while the other is unchanged, so neither ever
decreases. `MaxPings` is a Go `int`. -/
theorem C1_received_plus_dropped_eq_count (env : Env) (p : Pinger)
    (hmax : p.MaxPings ≤ maxInt) :
    (∀ (i : Nat) (b : State), (Ping.boundaries env p ⟨0, 0⟩)[i]? = some b →
      b.r.Received + b.r.Dropped = i ∧ b.count = i) ∧
    (∀ (i : Nat) (b c : State), (Ping.boundaries env p ⟨0, 0⟩)[i]? = some b →
      (Ping.boundaries env p ⟨0, 0⟩)[i + 1]? = some c →
      c.count = b.count + 1 ∧
      ((c.r.Received = b.r.Received + 1 ∧ c.r.Dropped = b.r.Dropped) ∨
        (c.r.Received = b.r.Received ∧ c.r.Dropped = b.r.Dropped + 1))) := by
  constructor
  · intro i b hb
    have hno := Ping_boundaries_some hb
    rw [Ping_boundaries_eq env p _ hno] at hb
    obtain ⟨hinv, hcount, _⟩ := boundaries_inv _ _ (atLoop_inv env p hmax) i b hb
    rw [atLoop_count] at hcount
    have hsum := hinv.sum_eq
    omega
  · intro i b c hb hc
    have hno := Ping_boundaries_some hb
    rw [Ping_boundaries_eq env p _ hno] at hb hc
    obtain ⟨hinv, _, _⟩ := boundaries_inv _ _ (atLoop_inv env p hmax) i b hb
    obtain ⟨hrun, a, _, rfl⟩ := boundaries_step _ _ i b c hb hc
    rw [iteration_count_of_inv a b hinv hrun, iteration_r_of_inv a b hinv hrun]
    refine ⟨rfl, ?_⟩
    cases succeeds b.p a <;> simp

/-- Witness of C1: three answered attempts, the second refused; at the second
boundary one probe was received and one dropped. -/
theorem C1_received_plus_dropped_eq_count_witness :
    demoPinger.MaxPings ≤ maxInt ∧
    (∃ b, (Ping.boundaries (demoEnv [demoOk, demoRefused, demoOk]) demoPinger ⟨0, 0⟩)[2]? =
        some b ∧ b.r = ⟨1, 1⟩ ∧ b.r.Received + b.r.Dropped = 2 ∧ b.count = 2) := by
  refine ⟨by decide, ?_⟩
  have h := (C1_received_plus_dropped_eq_count (demoEnv [demoOk, demoRefused, demoOk])
    demoPinger (by decide)).1 2
  refine ⟨iteration demoRefused (iteration demoOk (beforeLoop demoPinger ⟨0, 0⟩)), by decide,
    by decide, ?_⟩
  exact h _ (by decide)

theorem loop_of_interrupted (as : List Attempt) (s : State) (h : s.p.interrupted = true) :
    loop as s = ⟨Return.nil, s⟩ := by
  cases as <;> simp [loop, h]

theorem succeeds_iteration_fun (a : Attempt) (s : State) :
    succeeds (iteration a s).p = succeeds s.p := by
  funext b
  exact iteration_succeeds a b s

/-- A run of the loop that is `m + 1` probes short of `MaxPings` and is left alone. -/
theorem loop_run (m : Nat) (as : List Attempt) (s : State) (h : LoopInv s)
    (hrun : s.p.interrupted = false) (hmaxp : s.p.MaxPings = s.count + (m + 1 : Nat))
    (hlen : m + 1 ≤ as.length) (hquiet : ∀ a ∈ as.take (m + 1), a.interruptAt = none) :
    (loop as s).ret = Return.nil ∧
    (boundaries as s).length = m + 2 ∧
    (loop as s).final.count = s.count + (m + 1 : Nat) ∧
    dials (loop as s).final = dials s + (m + 1) ∧
    (loop as s).final.r.Received =
      s.r.Received + ((as.take (m + 1)).countP (succeeds s.p) : Nat) ∧
    (loop as s).final.r.Dropped =
      s.r.Dropped + ((as.take (m + 1)).countP (fun a => !succeeds s.p a) : Nat) := by
  induction m generalizing as s with
  | zero =>
    cases as with
    | nil => simp at hlen
    | cons a rest =>
      have ha : a.interruptAt = none := hquiet a (by simp)
      have hc := iteration_count_of_inv a s h hrun
      have hr := iteration_r_of_inv a s h hrun
      have hstop : (iteration a s).p.interrupted = true := by
        rw [iteration_interrupted, ← iteration_count, hc, ha, hrun]
        simp
        omega
      simp only [loop, boundaries, hrun, Bool.false_eq_true, if_false,
        loop_of_interrupted rest _ hstop, boundaries_of_interrupted rest _ hstop]
      rw [hc, hr, iteration_dials]
      cases hsa : succeeds s.p a <;> simp [hsa, List.countP_cons]
  | succ m ih =>
    cases as with
    | nil => simp at hlen
    | cons a rest =>
      have ha : a.interruptAt = none := hquiet a (by simp)
      have hc := iteration_count_of_inv a s h hrun
      have hr := iteration_r_of_inv a s h hrun
      have hgo : (iteration a s).p.interrupted = false := by
        rw [iteration_interrupted, ← iteration_count, hc, ha, hrun]
        simp
        omega
      have hlen1 : m + 1 ≤ rest.length := by simpa using hlen
      have hq1 : ∀ b ∈ rest.take (m + 1), b.interruptAt = none := by
        intro b hb
        exact hquiet b (by simp [List.take_succ_cons, hb])
      obtain ⟨h1, h2, h3, h4, h5, h6⟩ := ih rest (iteration a s) (loopInv_step h hrun a) hgo
        (by rw [iteration_maxPings, hmaxp, hc]; push_cast; omega) hlen1 hq1
      simp only [loop, boundaries, hrun, Bool.false_eq_true, if_false, List.length_cons]
      rw [succeeds_iteration_fun] at h5 h6
      refine ⟨h1, by omega, ?_, ?_, ?_, ?_⟩
      · rw [h3, hc]; push_cast; omega
      · rw [h4, iteration_dials]; omega
      · rw [h5, hr, List.take_succ_cons, List.countP_cons]
        cases hsa : succeeds s.p a <;> (simp [hsa]; try omega)
      · rw [h6, hr, List.take_succ_cons, List.countP_cons]
        cases hsa : succeeds s.p a <;> (simp [hsa]; try omega)

/-- C2: for every `N >= 1` (a Go `int`), a run of `Ping` with `MaxPings = N`, no DNS
override and a zeroed `Result`, which the environment answers for at least `N`
attempts without ever calling `Interrupt`, returns `nil` after exactly `N` iterations
(`N + 1` boundaries, `count = N`, `N` calls of `net.DialTimeout`), with `Received`
the number of successful attempts among the first `N` and `Dropped` the number
of failed ones; if all succeed the result is `N, 0`, if all fail it is `0, N`. -/
theorem C2_exactly_N_attempts (env : Env) (p : Pinger) (N : Nat) (hN : 1 ≤ N)
    (hp : p.MaxPings = N) (hmax : p.MaxPings ≤ maxInt) (hdns : p.DNSServer = "")
    (hlen : N ≤ env.attempts.length) (hearly : env.interruptEarly = false)
    (hquiet : ∀ a ∈ env.attempts.take N, a.interruptAt = none) :
    (Ping env p ⟨0, 0⟩).ret = Return.nil ∧
    (Ping.boundaries env p ⟨0, 0⟩).length = N + 1 ∧
    (Ping env p ⟨0, 0⟩).final.count = N ∧
    dials (Ping env p ⟨0, 0⟩).final = N ∧
    (Ping env p ⟨0, 0⟩).final.r.Received = ((env.attempts.take N).countP (succeeds p) : Nat) ∧
    (Ping env p ⟨0, 0⟩).final.r.Dropped =
      ((env.attempts.take N).countP (fun a => !succeeds p a) : Nat) ∧
    ((∀ a ∈ env.attempts.take N, succeeds p a = true) →
      (Ping env p ⟨0, 0⟩).final.r = ⟨N, 0⟩) ∧
    ((∀ a ∈ env.attempts.take N, succeeds p a = false) →
      (Ping env p ⟨0, 0⟩).final.r = ⟨0, N⟩) := by
  have hno : ¬ (p.DNSServer ≠ "" ∧ env.dnsDialErr ≠ none) := by simp [hdns]
  obtain ⟨m, rfl⟩ : ∃ m, N = m + 1 := ⟨N - 1, by omega⟩
  have hs : succeeds (atLoop env p ⟨0, 0⟩).p = succeeds p := by
    rw [atLoop_p]; rfl
  have hd0 : dials (atLoop env p ⟨0, 0⟩) = 0 := atLoop_dials env p _ hdns
  obtain ⟨h1, h2, h3, h4, h5, h6⟩ := loop_run m env.attempts (atLoop env p ⟨0, 0⟩)
    (atLoop_inv env p hmax) (by rw [atLoop_p, hearly]; rfl)
    (by rw [atLoop_p, atLoop_count]; simpa [Pinger.withFlag] using hp) hlen hquiet
  rw [Ping_eq_loop env p _ hno, Ping_boundaries_eq env p _ hno]
  rw [hs, atLoop_r] at h5 h6
  rw [atLoop_count] at h3
  have hlen2 : (env.attempts.take (m + 1)).length = m + 1 := by
    rw [List.length_take]; omega
  refine ⟨h1, h2, by simpa using h3, by omega, by simpa using h5, by simpa using h6, ?_, ?_⟩
  · intro hall
    have hR : (env.attempts.take (m + 1)).countP (succeeds p) = m + 1 := by
      rw [List.countP_eq_length.2 (fun a ha => hall a ha), hlen2]
    have hD : (env.attempts.take (m + 1)).countP (fun a => !succeeds p a) = 0 := by
      rw [List.countP_eq_zero]
      intro a ha
      simp [hall a ha]
    rw [hR] at h5
    rw [hD] at h6
    cases hr : (loop env.attempts (atLoop env p ⟨0, 0⟩)).final.r with
    | mk R D =>
      rw [hr] at h5 h6
      simp at h5 h6
      simp [h5, h6]
  · intro hall
    have hR : (env.attempts.take (m + 1)).countP (succeeds p) = 0 := by
      rw [List.countP_eq_zero]
      intro a ha
      simp [hall a ha]
    have hD : (env.attempts.take (m + 1)).countP (fun a => !succeeds p a) = m + 1 := by
      rw [List.countP_eq_length.2 (fun a ha => by simp [hall a ha]), hlen2]
    rw [hR] at h5
    rw [hD] at h6
    cases hr : (loop env.attempts (atLoop env p ⟨0, 0⟩)).final.r with
    | mk R D =>
      rw [hr] at h5 h6
      simp at h5 h6
      simp [h5, h6]

/-- Witness of C2: five answered attempts (and a sixth that is never used), two of
them refused, with `MaxPings = 5`. -/
theorem C2_exactly_N_attempts_witness :
    (1 ≤ 5 ∧ demoPinger.MaxPings = (5 : Nat) ∧ demoPinger.MaxPings ≤ maxInt ∧
      demoPinger.DNSServer = "" ∧ 5 ≤ (demoEnv demoMixed).attempts.length ∧
      (demoEnv demoMixed).interruptEarly = false ∧
      ∀ a ∈ (demoEnv demoMixed).attempts.take 5, a.interruptAt = none) ∧
    (Ping (demoEnv demoMixed) demoPinger ⟨0, 0⟩).ret = Return.nil ∧
    (Ping (demoEnv demoMixed) demoPinger ⟨0, 0⟩).final.r = ⟨3, 2⟩ := by
  have hq : ∀ a ∈ (demoEnv demoMixed).attempts.take 5, a.interruptAt = none := by decide
  have h := C2_exactly_N_attempts (demoEnv demoMixed) demoPinger 5
    (by decide) (by decide) (by decide) (by decide) (by decide) rfl hq
  exact ⟨⟨by decide, by decide, by decide, by decide, by decide, rfl, hq⟩, h.1, by decide⟩

/-- When `MaxPings` is at least one, `count` never passes it. -/
theorem boundaries_count_le (as : List Attempt) (s : State) (h : LoopInv s)
    (hlt : s.p.interrupted = false → s.count < s.p.MaxPings) (hle : s.count ≤ s.p.MaxPings)
    (i : Nat) (b : State) (hb : (boundaries as s)[i]? = some b) :
    b.count ≤ s.p.MaxPings := by
  induction i generalizing as s with
  | zero =>
    rw [boundaries_zero] at hb
    cases hb
    exact hle
  | succ i ih =>
    obtain ⟨hs, a, rest, rfl, hb1⟩ := boundaries_succ_some hb
    have hc := iteration_count_of_inv a s h hs
    have hi := iteration_interrupted a s
    rw [← iteration_count, hc] at hi
    have := ih rest (iteration a s) (loopInv_step h hs a)
      (by
        intro hf
        rw [hi] at hf
        simp at hf
        rw [iteration_maxPings, hc]
        omega)
      (by
        have := hlt hs
        rw [iteration_maxPings, hc]
        omega) hb1
    rw [iteration_maxPings] at this
    exact this

/-- Counterexample to C3 as stated: with `MaxPings = 0` the loop still makes one
attempt, and with `MaxPings = -1` as well, so `Received + Dropped` is `1`,
above `MaxPings`. -/
theorem C3_counterexample :
    (Ping (demoEnv [demoOk]) { demoPinger with MaxPings := 0 } ⟨0, 0⟩).final.r = ⟨1, 0⟩ ∧
    ¬ ((Ping (demoEnv [demoOk]) { demoPinger with MaxPings := 0 } ⟨0, 0⟩).final.r.Received +
        (Ping (demoEnv [demoOk]) { demoPinger with MaxPings := 0 } ⟨0, 0⟩).final.r.Dropped
      ≤ ({ demoPinger with MaxPings := 0 } : Pinger).MaxPings) ∧
    (Ping (demoEnv [demoOk]) { demoPinger with MaxPings := -1 } ⟨0, 0⟩).final.r = ⟨1, 0⟩ ∧
    ¬ ((Ping (demoEnv [demoOk]) { demoPinger with MaxPings := -1 } ⟨0, 0⟩).final.r.Received +
        (Ping (demoEnv [demoOk]) { demoPinger with MaxPings := -1 } ⟨0, 0⟩).final.r.Dropped
      ≤ ({ demoPinger with MaxPings := -1 } : Pinger).MaxPings) := by
  decide

/-- C3 (amended): for every `MaxPings >= 1` (a Go `int`) and whatever the
environment answers, in a run of `Ping` that starts from a zeroed `Result`,
`Received + Dropped` is at most `MaxPings` at every iteration boundary and when
the call ends. -/
theorem C3_sum_le_maxPings (env : Env) (p : Pinger) (hpos : 1 ≤ p.MaxPings)
    (hmax : p.MaxPings ≤ maxInt) :
    (∀ (i : Nat) (b : State), (Ping.boundaries env p ⟨0, 0⟩)[i]? = some b →
      b.r.Received + b.r.Dropped ≤ p.MaxPings) ∧
    (Ping env p ⟨0, 0⟩).final.r.Received + (Ping env p ⟨0, 0⟩).final.r.Dropped
      ≤ p.MaxPings := by
  have key : ∀ (i : Nat) (b : State),
      (boundaries env.attempts (atLoop env p ⟨0, 0⟩))[i]? = some b →
      b.r.Received + b.r.Dropped ≤ p.MaxPings := by
    intro i b hb
    have hinv := atLoop_inv env p hmax
    obtain ⟨hb1, _, _⟩ := boundaries_inv _ _ hinv i b hb
    have hle := boundaries_count_le _ _ hinv
      (by intro _; rw [atLoop_count, atLoop_p]; exact hpos)
      (by rw [atLoop_count, atLoop_p]; exact le_trans (by decide) hpos) i b hb
    rw [atLoop_p] at hle
    have hsum := hb1.sum_eq
    have hle2 : b.count ≤ p.MaxPings := hle
    omega
  constructor
  · intro i b hb
    have hno := Ping_boundaries_some hb
    rw [Ping_boundaries_eq env p _ hno] at hb
    exact key i b hb
  · by_cases hno : p.DNSServer ≠ "" ∧ env.dnsDialErr ≠ none
    · obtain ⟨hd, he⟩ := hno
      obtain ⟨e, he⟩ := Option.ne_none_iff_exists'.1 he
      rw [Ping_of_unreachable env p _ e hd he, early_eq]
      simp [State.emit, enter]
      omega
    · rw [Ping_eq_loop env p _ hno]
      exact key _ _ (loop_final env.attempts (atLoop env p ⟨0, 0⟩))

/-- Witness of C3 (amended): `MaxPings = 5` and seven answered attempts. -/
theorem C3_sum_le_maxPings_witness :
    (1 ≤ demoPinger.MaxPings ∧ demoPinger.MaxPings ≤ maxInt) ∧
    (Ping (demoEnv [demoOk, demoOk, demoRefused, demoOk, demoOk, demoOk, demoOk]) demoPinger
        ⟨0, 0⟩).final.r = ⟨4, 1⟩ ∧
    (Ping (demoEnv [demoOk, demoOk, demoRefused, demoOk, demoOk, demoOk, demoOk]) demoPinger
        ⟨0, 0⟩).final.r.Received +
      (Ping (demoEnv [demoOk, demoOk, demoRefused, demoOk, demoOk, demoOk, demoOk]) demoPinger
        ⟨0, 0⟩).final.r.Dropped ≤ demoPinger.MaxPings :=
  ⟨⟨by decide, by decide⟩, by decide,
    (C3_sum_le_maxPings (demoEnv [demoOk, demoOk, demoRefused, demoOk, demoOk, demoOk, demoOk])
      demoPinger (by decide) (by decide)).2⟩

/-- C4: when `DNSServer` is set and the reachability dial fails, `Ping` returns the
error `dns server not reachable: <address>` before the loop: the only thing it
did to the outside world is that one dial (no probe of the target, no call of
`Log`), no iteration boundary is reached, and `Received` and `Dropped` are what
they were, for every initial `Result`. -/
theorem C4_dns_unreachable (env : Env) (p : Pinger) (r : Result) (e : String)
    (hd : p.DNSServer ≠ "") (he : env.dnsDialErr = some e) :
    (Ping env p r).ret = Return.error ("dns server not reachable: " ++ dnsAddress p.DNSServer) ∧
    (Ping env p r).final.trace = [Event.dial p.Protocol (dnsAddress p.DNSServer) p.TTL] ∧
    logged (Ping env p r).final = [] ∧
    Ping.boundaries env p r = [] ∧
    (Ping env p r).final.count = 0 ∧
    (Ping env p r).final.r = r ∧
    (Ping env p r).final.r.Received = r.Received ∧
    (Ping env p r).final.r.Dropped = r.Dropped := by
  rw [Ping_of_unreachable env p r e hd he, early_eq]
  simp [State.emit, enter, logged, Event.line, Ping.boundaries, hd, he]

/-- Witness of C4: an override `10.255.255.1` that does not answer and a `Result`
holding counts from an earlier run. -/
theorem C4_dns_unreachable_witness :
    ({ demoPinger with DNSServer := "10.255.255.1" } : Pinger).DNSServer ≠ "" ∧
    ({ demoEnv [demoOk] with dnsDialErr := some "i/o timeout" } : Env).dnsDialErr =
      some "i/o timeout" ∧
    (Ping { demoEnv [demoOk] with dnsDialErr := some "i/o timeout" }
        { demoPinger with DNSServer := "10.255.255.1" } ⟨3, 2⟩).ret =
      Return.error "dns server not reachable: 10.255.255.1:53" ∧
    (Ping { demoEnv [demoOk] with dnsDialErr := some "i/o timeout" }
        { demoPinger with DNSServer := "10.255.255.1" } ⟨3, 2⟩).final.r = ⟨3, 2⟩ := by
  have h := C4_dns_unreachable { demoEnv [demoOk] with dnsDialErr := some "i/o timeout" }
    { demoPinger with DNSServer := "10.255.255.1" } ⟨3, 2⟩ "i/o timeout" (by decide) rfl
  exact ⟨by decide, rfl, by decide, h.2.2.2.2.2.1⟩

/-- C9: calling `Interrupt` twice leaves the pinger exactly as calling it once
does: the flag is up and every configuration field is what it was; and the call
neither changes the `Result` nor depends on it. -/
theorem C9_interrupt_idempotent (p : Pinger) (s : State) (r : Result) :
    p.Interrupt.Interrupt = p.Interrupt ∧
    p.Interrupt.interrupted = true ∧
    p.Interrupt = { p with interrupted := true } ∧
    (p.Interrupt.Host = p.Host ∧ p.Interrupt.Port = p.Port ∧
      p.Interrupt.Protocol = p.Protocol ∧ p.Interrupt.Wait = p.Wait ∧
      p.Interrupt.PayloadSize = p.PayloadSize ∧ p.Interrupt.Interval = p.Interval ∧
      p.Interrupt.TTL = p.TTL ∧ p.Interrupt.MaxPings = p.MaxPings ∧
      p.Interrupt.DNSServer = p.DNSServer) ∧
    s.Interrupt.Interrupt = s.Interrupt ∧
    s.Interrupt.r = s.r ∧
    ({ s with r := r } : State).Interrupt = { s.Interrupt with r := r } := by
  refine ⟨rfl, rfl, rfl, ⟨rfl, rfl, rfl, rfl, rfl, rfl, rfl, rfl, rfl⟩, rfl, rfl, rfl⟩

theorem countOk_step {s : State} (h : CountOk s) (hrun : s.p.interrupted = false)
    (a : Attempt) : CountOk (iteration a s) ∧ (iteration a s).count = s.count + 1 := by
  obtain ⟨h1, h2, h3⟩ := h
  have hc : incr s.count = s.count + 1 := incr_eq _ h2 (h3 hrun)
  have hi := iteration_interrupted a s
  rw [hc] at hi
  refine ⟨⟨?_, ?_, ?_⟩, ?_⟩
  · rw [iteration_maxPings]; exact h1
  · rw [iteration_count, hc]; omega
  · intro hf
    rw [hi] at hf
    simp at hf
    rw [iteration_count, hc]
    omega
  · rw [iteration_count, hc]

/-- The loop returns `nil` as soon as the environment answers enough attempts. -/
theorem loop_returns (as : List Attempt) (s : State) (h : CountOk s)
    (hfuel : s.p.interrupted = true ∨ (as ≠ [] ∧ s.p.MaxPings ≤ s.count + as.length)) :
    (loop as s).ret = Return.nil := by
  induction as generalizing s with
  | nil =>
    rcases hfuel with hi | ⟨hne, _⟩
    · simp [loop, hi]
    · exact absurd rfl hne
  | cons a rest ih =>
    cases hs : s.p.interrupted with
    | true => simp [loop, hs]
    | false =>
      rcases hfuel with hi | ⟨_, hle⟩
      · rw [hs] at hi; cases hi
      · obtain ⟨hok, hc⟩ := countOk_step h hs a
        simp only [loop, hs, Bool.false_eq_true, if_false]
        apply ih _ hok
        cases hs1 : (iteration a s).p.interrupted with
        | true => exact Or.inl rfl
        | false =>
          right
          have hi := iteration_interrupted a s
          rw [← iteration_count, hc, hs1] at hi
          have hlt : s.count + 1 < s.p.MaxPings := by
            have := hi.symm
            simp at this
            exact this.2
          rw [iteration_maxPings, hc]
          simp only [List.length_cons] at hle
          push_cast at hle
          constructor
          · intro hnil
            rw [hnil] at hle
            simp at hle
            omega
          · omega

/-- C5: `Ping` returns an error exactly when `DNSServer` is set and the reachability
dial fails; otherwise, whatever the attempts do, it returns `nil` once the
environment has answered enough attempts (at least one, and at least
`MaxPings`). An attempt that fails (connect error, write error, short write,
read error, empty read) adds one to `Dropped` and nothing to `Received`, logs
its reason with the sequence number `count`, and leaves the flag down unless
`MaxPings` is reached or `Interrupt` was called, so the loop goes on. -/
theorem C5_only_dns_failure_is_an_error (env : Env) (p : Pinger) (r : Result) :
    ((∃ msg, (Ping env p r).ret = Return.error msg) ↔
      (p.DNSServer ≠ "" ∧ env.dnsDialErr ≠ none)) ∧
    (¬ (p.DNSServer ≠ "" ∧ env.dnsDialErr ≠ none) → p.MaxPings ≤ maxInt →
      env.attempts ≠ [] → p.MaxPings ≤ env.attempts.length →
      (Ping env p r).ret = Return.nil) ∧
    (∀ (a : Attempt) (s : State) (reason : String), failureOf s.p a = some reason →
      (iteration a s).r = { s.r with Dropped := incr s.r.Dropped } ∧
      (0 ≤ s.r.Dropped → s.r.Dropped < maxInt →
        (iteration a s).r.Dropped = s.r.Dropped + 1) ∧
      logged (iteration a s) = logged s ++ bannerOf a s ++ [LogLine.failure reason s.count] ∧
      (iteration a s).count = incr s.count ∧
      (s.p.interrupted = false → a.interruptAt = none → incr s.count < s.p.MaxPings →
        (iteration a s).p.interrupted = false)) ∧
    (∀ (q : Pinger) (a : Attempt),
      (∀ e, a.dialErr = some e → failureOf q a = some e) ∧
      (∀ e, a.dialErr = none → a.writeErr = some e → failureOf q a = some e) ∧
      (a.dialErr = none → a.writeErr = none → a.writeN ≠ q.PayloadSize →
        failureOf q a = some ("partial payload written (size=" ++ toString a.writeN ++ ")")) ∧
      (∀ e, a.dialErr = none → a.writeErr = none → a.writeN = q.PayloadSize →
        q.Wait = true → a.readErr = some e → failureOf q a = some e) ∧
      (a.dialErr = none → a.writeErr = none → a.writeN = q.PayloadSize →
        q.Wait = true → a.readErr = none → a.readN ≤ 0 →
        failureOf q a = some "no packet received")) := by
  refine ⟨?_, ?_, ?_, ?_⟩
  · constructor
    · rintro ⟨msg, hmsg⟩
      by_contra hno
      rw [Ping_eq_loop env p r hno] at hmsg
      exact loop_ret_ne_error _ _ msg hmsg
    · rintro ⟨hd, he⟩
      obtain ⟨e, he⟩ := Option.ne_none_iff_exists'.1 he
      exact ⟨_, by rw [Ping_of_unreachable env p r e hd he]⟩
  · intro hno hmax hne hlen
    rw [Ping_eq_loop env p r hno]
    apply loop_returns
    · refine ⟨?_, ?_, ?_⟩
      · rw [atLoop_p]; exact hmax
      · rw [atLoop_count]
      · intro _; rw [atLoop_count]; decide
    · right
      refine ⟨hne, ?_⟩
      rw [atLoop_p, atLoop_count]
      simpa [Pinger.withFlag] using hlen
  · intro a s reason hf
    refine ⟨?_, ?_, ?_, iteration_count a s, ?_⟩
    · rw [iteration_r, hf]
    · intro h0 h1
      rw [iteration_r, hf]
      exact incr_eq _ h0 h1
    · rw [iteration_logged]
      simp [lineOf, hf]
    · intro hs ha hlt
      rw [iteration_interrupted, hs, ha]
      simp
      exact hlt
  · intro q a
    refine ⟨?_, ?_, ?_, ?_, ?_⟩
    · intro e h1
      simp [failureOf, h1]
    · intro e h1 h2
      simp [failureOf, h1, h2]
    · intro h1 h2 h3
      simp [failureOf, h1, h2, h3]
    · intro e h1 h2 h3 h4 h5
      simp [failureOf, h1, h2, h3, h4, h5]
    · intro h1 h2 h3 h4 h5 h6
      simp [failureOf, h1, h2, h3, h4, h5, h6]

/-- Witness of C5: five refused connects with `MaxPings = 5` and no DNS override:
`Ping` returns `nil` with five probes dropped, the last one logged with `seq=4`. -/
theorem C5_only_dns_failure_is_an_error_witness :
    (¬ (demoPinger.DNSServer ≠ "" ∧
        (demoEnv (List.replicate 5 demoRefused)).dnsDialErr ≠ none) ∧
      demoPinger.MaxPings ≤ maxInt ∧
      (demoEnv (List.replicate 5 demoRefused)).attempts ≠ [] ∧
      demoPinger.MaxPings ≤ (demoEnv (List.replicate 5 demoRefused)).attempts.length) ∧
    (Ping (demoEnv (List.replicate 5 demoRefused)) demoPinger ⟨0, 0⟩).ret = Return.nil ∧
    (Ping (demoEnv (List.replicate 5 demoRefused)) demoPinger ⟨0, 0⟩).final.r = ⟨0, 5⟩ ∧
    (logged (Ping (demoEnv (List.replicate 5 demoRefused)) demoPinger ⟨0, 0⟩).final).getLast? =
      some (LogLine.failure "dial tcp 127.0.0.1:50053: connect: connection refused" 4) :=
  ⟨⟨by decide, by decide, by decide, by decide⟩,
    (C5_only_dns_failure_is_an_error (demoEnv (List.replicate 5 demoRefused)) demoPinger
      ⟨0, 0⟩).2.1 (by decide) (by decide) (by decide) (by decide),
    by decide, by decide⟩

theorem probe_keeps_flag (a : Attempt) (s : State) (h : s.p.interrupted = true) :
    (probe a s).p.interrupted = true := by
  rw [probe_p]
  simp [Pinger.withFlag, h]

theorem iteration_keeps_flag (a : Attempt) (s : State) (h : s.p.interrupted = true) :
    (iteration a s).p.interrupted = true := by
  rw [iteration_interrupted]
  simp [h]

/-- C6: when `Interrupt` is called during iteration `i` of a run (while the attempt
is in flight, or during the sleep that ends the iteration), the attempt of that
iteration still runs in full and is counted (one of `Received`, `Dropped` gets
its `++`), the next boundary is the last one, no further call of
`net.DialTimeout` is made, and `Ping` returns `nil` with the variables of that
boundary, where the flag is up. When `Interrupt` is called before the loop
starts, no attempt is made at all and `Ping` returns `nil` with the `Result`
untouched. Neither an attempt nor an iteration ever lowers a flag that is up. -/
theorem C6_interrupt_stops_at_next_boundary (env : Env) (p : Pinger) (r : Result) :
    (∀ (i : Nat) (b : State) (a : Attempt) (pt : InterruptPoint),
      (Ping.boundaries env p r)[i]? = some b → b.p.interrupted = false →
      env.attempts[i]? = some a → a.interruptAt = some pt →
      (Ping.boundaries env p r)[i + 1]? = some (iteration a b) ∧
      (pt = InterruptPoint.inFlight → iteration a b = probe a b.Interrupt) ∧
      (pt = InterruptPoint.asleep → iteration a b = (probe a b).Interrupt) ∧
      ((iteration a b).r = { b.r with Received := incr b.r.Received } ∨
        (iteration a b).r = { b.r with Dropped := incr b.r.Dropped }) ∧
      (iteration a b).count = incr b.count ∧
      (Ping.boundaries env p r).length = i + 2 ∧
      Ping env p r = ⟨Return.nil, iteration a b⟩ ∧
      dials (Ping env p r).final = dials b + 1 ∧
      (iteration a b).p.interrupted = true) ∧
    (env.interruptEarly = true → ¬ (p.DNSServer ≠ "" ∧ env.dnsDialErr ≠ none) →
      Ping env p r = ⟨Return.nil, atLoop env p r⟩ ∧
      Ping.boundaries env p r = [atLoop env p r] ∧
      (atLoop env p r).trace = (beforeLoop p r).trace ∧
      (atLoop env p r).r = r ∧
      (atLoop env p r).p.interrupted = true) ∧
    (∀ (x : Attempt) (s : State), s.p.interrupted = true →
      (probe x s).p.interrupted = true ∧ (iteration x s).p.interrupted = true) := by
  refine ⟨?_, ?_, ?_⟩
  · intro i b a pt hb hrun ha hint
    have hno := Ping_boundaries_some hb
    rw [Ping_boundaries_eq env p r hno] at hb ⊢
    have hnext := boundaries_next _ _ i b a hb hrun ha
    have hflag : (iteration a b).p.interrupted = true := by
      rw [iteration_interrupted, hint]
      simp
    obtain ⟨hloop, hlen⟩ := loop_of_boundary _ _ (i + 1) _ hnext hflag
    have hPing : Ping env p r = ⟨Return.nil, iteration a b⟩ := by
      rw [Ping_eq_loop env p r hno, hloop]
    refine ⟨hnext, ?_, ?_, ?_, iteration_count a b, hlen, hPing, ?_, hflag⟩
    · intro hpt
      subst hpt
      simp only [iteration, interruptIf, hint, if_true]
      rw [if_neg (by decide)]
    · intro hpt
      subst hpt
      simp only [iteration, interruptIf, hint, if_true]
      rw [if_neg (by decide)]
    · rw [iteration_r]
      cases failureOf b.p a
      · exact Or.inl rfl
      · exact Or.inr rfl
    · rw [hPing, iteration_dials]
  · intro hearly hno
    have hflag : (atLoop env p r).p.interrupted = true := by
      rw [atLoop_p, hearly]; rfl
    refine ⟨?_, ?_, ?_, atLoop_r env p r, hflag⟩
    · rw [Ping_eq_loop env p r hno, loop_of_interrupted _ _ hflag]
    · rw [Ping_boundaries_eq env p r hno, boundaries_of_interrupted _ _ hflag]
    · unfold atLoop
      rw [early_eq]
  · intro x s hs
    exact ⟨probe_keeps_flag x s hs, iteration_keeps_flag x s hs⟩

/-- Witness of C6: `MaxPings = 5`; `Interrupt` is called while the second attempt is
in flight; the third attempt is never made. -/
theorem C6_interrupt_stops_at_next_boundary_witness :
    ((Ping.boundaries (demoEnv [demoOk, demoInterrupted, demoOk]) demoPinger ⟨0, 0⟩)[1]? =
        some (iteration demoOk (beforeLoop demoPinger ⟨0, 0⟩)) ∧
      (iteration demoOk (beforeLoop demoPinger ⟨0, 0⟩)).p.interrupted = false ∧
      (demoEnv [demoOk, demoInterrupted, demoOk]).attempts[1]? = some demoInterrupted ∧
      demoInterrupted.interruptAt = some InterruptPoint.inFlight) ∧
    (Ping (demoEnv [demoOk, demoInterrupted, demoOk]) demoPinger ⟨0, 0⟩).ret = Return.nil ∧
    (Ping (demoEnv [demoOk, demoInterrupted, demoOk]) demoPinger ⟨0, 0⟩).final.r = ⟨2, 0⟩ ∧
    (Ping.boundaries (demoEnv [demoOk, demoInterrupted, demoOk]) demoPinger ⟨0, 0⟩).length =
      1 + 2 := by
  have h := (C6_interrupt_stops_at_next_boundary (demoEnv [demoOk, demoInterrupted, demoOk])
    demoPinger ⟨0, 0⟩).1 1 (iteration demoOk (beforeLoop demoPinger ⟨0, 0⟩))
    demoInterrupted InterruptPoint.inFlight (by decide) (by decide) (by decide) rfl
  exact ⟨⟨by decide, by decide, by decide, rfl⟩, by decide, by decide, h.2.2.2.2.2.1⟩

/-- An address without a colon gets the port 53. -/
theorem dnsAddress_of_no_colon (server : String) (h : ':' ∉ server.toList) :
    dnsAddress server = server ++ ":53" := by
  unfold dnsAddress
  rw [if_neg (by simpa using h)]

/-- An address with a colon is used as it is. -/
theorem dnsAddress_of_colon (server : String) (h : ':' ∈ server.toList) :
    dnsAddress server = server := by
  unfold dnsAddress
  rw [if_pos (by simpa using h)]

/-- C7 at the failing input: the DNS server `2001:4860:4860::8888`, an IPv6 host given
without a port, is dialled as it stands, without the port 53, and the error of
`Ping` names that address. -/
theorem C7_ipv6_host_gets_no_port :
    dnsAddress "2001:4860:4860::8888" = "2001:4860:4860::8888" ∧
    Ping { demoEnv [demoOk] with
          dnsDialErr := some "dial tcp: address 2001:4860:4860::8888: too many colons in address" }
        { demoPinger with DNSServer := "2001:4860:4860::8888" } ⟨0, 0⟩ =
      ⟨Return.error "dns server not reachable: 2001:4860:4860::8888",
        { p := { demoPinger with DNSServer := "2001:4860:4860::8888" }, r := ⟨0, 0⟩, count := 0,
          firstPacket := true,
          trace := [Event.dial "tcp" "2001:4860:4860::8888" 200000000] }⟩ := by
  decide

/-- C8: the reply line of a successful attempt. Without `Wait` it carries
`PayloadSize`, the direction `to` and the Go sum of the connect and write
durations; with `Wait` it carries the number of bytes read, the direction `from`
and the Go sum of the connect, write and read durations. Whenever the clock
readings of the phases are in order and less than 97 years apart, that sum is
exactly `(stop1 - start1) + (stop2 - start2)`, plus `(stop3 - start3)` with
`Wait`. -/
theorem C8_reply_line (a : Attempt) (s : State) (hok : succeeds s.p a = true) :
    (s.p.Wait = false →
      logged (iteration a s) = logged s ++ bannerOf a s ++
        [LogLine.reply s.p.PayloadSize "to" a.remoteAddr s.p.Protocol s.count
          (durAdd (timeSub a.stop1 a.start1) (timeSub a.stop2 a.start2))] ∧
      (elapsedOk a.start1 a.stop1 → elapsedOk a.start2 a.stop2 →
        durAdd (timeSub a.stop1 a.start1) (timeSub a.stop2 a.start2) =
          (a.stop1 - a.start1) + (a.stop2 - a.start2))) ∧
    (s.p.Wait = true →
      logged (iteration a s) = logged s ++ bannerOf a s ++
        [LogLine.reply a.readN "from" a.remoteAddr s.p.Protocol s.count
          (durAdd (durAdd (timeSub a.stop1 a.start1) (timeSub a.stop2 a.start2))
            (timeSub a.stop3 a.start3))] ∧
      (elapsedOk a.start1 a.stop1 → elapsedOk a.start2 a.stop2 →
        elapsedOk a.start3 a.stop3 →
        durAdd (durAdd (timeSub a.stop1 a.start1) (timeSub a.stop2 a.start2))
            (timeSub a.stop3 a.start3) =
          (a.stop1 - a.start1) + (a.stop2 - a.start2) + (a.stop3 - a.start3))) := by
  have hf : failureOf s.p a = none := by
    unfold succeeds at hok
    exact Option.isNone_iff_eq_none.1 hok
  constructor
  · intro hw
    refine ⟨?_, ?_⟩
    · rw [iteration_logged]
      simp [lineOf, hf, hw, rttOf]
    · intro h1 h2
      rw [timeSub_of_elapsedOk _ _ h1, timeSub_of_elapsedOk _ _ h2]
      obtain ⟨h1a, h1b⟩ := h1
      obtain ⟨h2a, h2b⟩ := h2
      apply durAdd_eq <;> simp only [minInt, maxInt] <;> omega
  · intro hw
    refine ⟨?_, ?_⟩
    · rw [iteration_logged]
      simp [lineOf, hf, hw, rttOf]
    · intro h1 h2 h3
      rw [timeSub_of_elapsedOk _ _ h1, timeSub_of_elapsedOk _ _ h2,
        timeSub_of_elapsedOk _ _ h3]
      obtain ⟨h1a, h1b⟩ := h1
      obtain ⟨h2a, h2b⟩ := h2
      obtain ⟨h3a, h3b⟩ := h3
      rw [durAdd_eq (a.stop1 - a.start1) (a.stop2 - a.start2)
        (by simp only [minInt]; omega) (by simp only [maxInt]; omega)]
      apply durAdd_eq <;> simp only [minInt, maxInt] <;> omega

/-- Witness of C8: a successful first attempt with `Wait` set: 3 ms to connect, 1 ms
to write and 5 ms to read are reported as 9 ms, with the 17 bytes read. -/
theorem C8_reply_line_witness :
    succeeds (beforeLoop { demoPinger with Wait := true } ⟨0, 0⟩).p demoOk = true ∧
    (logged (iteration demoOk (beforeLoop { demoPinger with Wait := true } ⟨0, 0⟩))).getLast? =
      some (LogLine.reply 17 "from" "127.0.0.1:50053" "tcp" 0 9000000) := by
  have h := (C8_reply_line demoOk (beforeLoop { demoPinger with Wait := true } ⟨0, 0⟩)
    (by decide)).2 rfl
  refine ⟨by decide, ?_⟩
  rw [h.1]
  decide

theorem lineOf_isBanner (a : Attempt) (s : State) : (lineOf a s).isBanner = false := by
  unfold lineOf
  split
  · rfl
  · split <;> rfl

theorem bannerCount_iteration (a : Attempt) (s : State) :
    bannerCount (iteration a s) =
      bannerCount s + (if s.firstPacket = true ∧ a.dialErr = none then 1 else 0) := by
  unfold bannerCount
  rw [iteration_logged, List.countP_append, List.countP_append]
  have h1 : List.countP LogLine.isBanner [lineOf a s] = 0 := by
    simp [List.countP_cons, lineOf_isBanner]
  rw [h1]
  unfold bannerOf
  split <;> simp [LogLine.isBanner]

/-- The banner is logged in the first iteration whose connect succeeds. -/
theorem boundaries_banner (as : List Attempt) (s : State) (i : Nat) (b : State)
    (hb : (boundaries as s)[i]? = some b) :
    b.firstPacket = (s.firstPacket && !(as.take i).any (fun a => a.dialErr.isNone)) ∧
    bannerCount b = bannerCount s +
      (if s.firstPacket = true ∧ (as.take i).any (fun a => a.dialErr.isNone) = true
        then 1 else 0) := by
  induction i generalizing as s with
  | zero =>
    rw [boundaries_zero] at hb
    cases hb
    simp
  | succ i ih =>
    obtain ⟨hs, a, rest, rfl, hb1⟩ := boundaries_succ_some hb
    obtain ⟨h1, h2⟩ := ih rest (iteration a s) hb1
    rw [iteration_firstPacket] at h1 h2
    rw [bannerCount_iteration] at h2
    rw [h1, h2, List.take_succ_cons, List.any_cons]
    cases s.firstPacket <;> cases a.dialErr <;>
      cases (rest.take i).any (fun a => a.dialErr.isNone) <;> simp

/-- Counterexample to C10 as stated: a UDP probe with `Wait` whose connect and write
succeed and whose read times out is counted as dropped, nothing is received in
the run, and the banner is logged all the same. -/
theorem C10_counterexample :
    (Ping (demoEnv [demoTimeout]) { demoUdp with MaxPings := 1 } ⟨0, 0⟩).ret = Return.nil ∧
    (Ping (demoEnv [demoTimeout]) { demoUdp with MaxPings := 1 } ⟨0, 0⟩).final.r = ⟨0, 1⟩ ∧
    logged (Ping (demoEnv [demoTimeout]) { demoUdp with MaxPings := 1 } ⟨0, 0⟩).final =
      [LogLine.banner "127.0.0.1" "127.0.0.1:50053" 64,
        LogLine.failure "read udp 127.0.0.1:50053: i/o timeout" 0] := by
  decide

/-- C10 (amended): in every run of `Ping` the banner is logged at most once, and it
is logged during the first attempt whose connect succeeds, whether that attempt
ends up received or dropped: at the `i`-th boundary the banner has been logged
once if one of the first `i` attempts connected and not at all otherwise; so an
attempt whose connect fails never logs it and a run without a successful
connect logs no banner. -/
theorem C10_banner_on_first_connect (env : Env) (p : Pinger) (r : Result) :
    (∀ (i : Nat) (b : State), (Ping.boundaries env p r)[i]? = some b →
      bannerCount b =
        if (env.attempts.take i).any (fun a => a.dialErr.isNone) = true then 1 else 0) ∧
    bannerCount (Ping env p r).final ≤ 1 ∧
    (∀ (a : Attempt) (s : State), a.dialErr ≠ none →
      bannerCount (iteration a s) = bannerCount s) ∧
    ((∀ a ∈ env.attempts, a.dialErr ≠ none) → bannerCount (Ping env p r).final = 0) := by
  have key : ∀ (i : Nat) (b : State),
      (boundaries env.attempts (atLoop env p r))[i]? = some b →
      bannerCount b =
        if (env.attempts.take i).any (fun a => a.dialErr.isNone) = true then 1 else 0 := by
    intro i b hb
    obtain ⟨_, h⟩ := boundaries_banner _ _ i b hb
    rw [h, atLoop_firstPacket]
    simp [bannerCount, atLoop_logged]
  have hfail : ∀ e, p.DNSServer ≠ "" → env.dnsDialErr = some e →
      bannerCount (Ping env p r).final = 0 := by
    intro e hd he
    rw [Ping_of_unreachable env p r e hd he, early_eq]
    simp [bannerCount, logged, State.emit, enter, Event.line]
  refine ⟨?_, ?_, ?_, ?_⟩
  · intro i b hb
    have hno := Ping_boundaries_some hb
    rw [Ping_boundaries_eq env p r hno] at hb
    exact key i b hb
  · by_cases hno : p.DNSServer ≠ "" ∧ env.dnsDialErr ≠ none
    · obtain ⟨hd, he⟩ := hno
      obtain ⟨e, he⟩ := Option.ne_none_iff_exists'.1 he
      rw [hfail e hd he]
      exact Nat.zero_le 1
    · rw [Ping_eq_loop env p r hno, key _ _ (loop_final env.attempts (atLoop env p r))]
      split <;> simp
  · intro a s ha
    rw [bannerCount_iteration, if_neg (fun h => ha h.2)]
    rfl
  · intro hall
    by_cases hno : p.DNSServer ≠ "" ∧ env.dnsDialErr ≠ none
    · obtain ⟨hd, he⟩ := hno
      obtain ⟨e, he⟩ := Option.ne_none_iff_exists'.1 he
      exact hfail e hd he
    · rw [Ping_eq_loop env p r hno, key _ _ (loop_final env.attempts (atLoop env p r))]
      rw [if_neg]
      simp only [List.any_eq_true, not_exists, not_and]
      intro a ha
      have := hall a (List.mem_of_mem_take ha)
      cases hda : a.dialErr with
      | none => exact absurd hda this
      | some e => simp

/-- Witness of C10 (amended): a refused connect, then an attempt that connects and
times out on the read, then a success: the banner is absent at the first
boundary and present once from the second on. -/
theorem C10_banner_on_first_connect_witness :
    (Ping.boundaries (demoEnv [demoRefused, demoTimeout, demoOk]) demoUdp ⟨0, 0⟩)[2]? =
      some (iteration demoTimeout (iteration demoRefused (beforeLoop demoUdp ⟨0, 0⟩))) ∧
    bannerCount (iteration demoTimeout (iteration demoRefused (beforeLoop demoUdp ⟨0, 0⟩))) =
      1 ∧
    (iteration demoTimeout (iteration demoRefused (beforeLoop demoUdp ⟨0, 0⟩))).r = ⟨0, 2⟩ := by
  have h := (C10_banner_on_first_connect (demoEnv [demoRefused, demoTimeout, demoOk]) demoUdp
    ⟨0, 0⟩).1 2 (iteration demoTimeout (iteration demoRefused (beforeLoop demoUdp ⟨0, 0⟩)))
    (by decide)
  exact ⟨by decide, h.trans (by decide), by decide⟩

end Pping
